import Mathlib

/-!
Verification development for the tele-mcp process-backed MCP gateway.

The Go sources are embedded shallowly: pure decision logic becomes Lean
functions, stateful components become explicit state-passing functions,
and interactions with the operating system (process spawning, pipe I/O,
the child's behaviour) are parameters of the model. Every definition
follows the corresponding Go function; source locations are cited in
the doc comments.
-/

namespace TeleMcp

/-! ## Go string primitives

`strings.Fields` and `strings.Contains` from the Go standard library,
modelled over the character list of a `String`. -/

/-- Whitespace test used by `strings.Fields` (ASCII whitespace suffices for
the inputs the gateway handles). -/
def isSpaceChar (c : Char) : Bool :=
  c = ' ' || c = '\t' || c = '\n' || c = '\r'

/-- Accumulating worker for `goFields`: splits a character list on
whitespace, dropping empty fields. -/
def fieldsAux : List Char → List Char → List (List Char)
  | [], cur => if cur = [] then [] else [cur.reverse]
  | c :: rest, cur =>
    if isSpaceChar c then
      (if cur = [] then fieldsAux rest [] else cur.reverse :: fieldsAux rest [])
    else fieldsAux rest (c :: cur)

/-- Go `strings.Fields`: the whitespace-separated fields of a string. -/
def goFields (s : String) : List (List Char) := fieldsAux s.data []

/-- List-level starts-with test. -/
def hasPrefixL : List Char → List Char → Bool
  | _, [] => true
  | [], _ :: _ => false
  | a :: as, b :: bs => a = b && hasPrefixL as bs

/-- List-level substring test. -/
def containsL : List Char → List Char → Bool
  | s, pat =>
    if hasPrefixL s pat then true
    else
      match s with
      | [] => false
      | _ :: rest => containsL rest pat

/-- Go `strings.Contains`. -/
def goContains (s pat : String) : Bool := containsL s.data pat.data

/-! ## JSON values

The gateway never interprets payloads; it only checks whether a parsed
value is an object and which of the keys `method`, `result`, `error`,
`id` it carries (and whether `id` is null). Arrays are not inspected
anywhere, so a non-object valid JSON value is represented by `num`/`str`
as well as by any object. -/

/-- A parsed JSON value, as far as the gateway inspects it. -/
inductive Json where
  | null
  | num (n : Int)
  | str (s : String)
  | obj (fields : List (String × Json))

/-- Key-presence test on a decoded JSON object, mirroring the
`_, ok := m["k"]` idiom on Go's `map[string]interface{}`. -/
def hasKey (fields : List (String × Json)) (k : String) : Bool :=
  fields.any (fun p => p.1 = k)

/-- Key lookup on a decoded JSON object, mirroring `m["k"]`. -/
def lookupKey : List (String × Json) → String → Option Json
  | [], _ => none
  | (k', v) :: rest, k => if k' = k then some v else lookupKey rest k

/-- Go's `m["id"] == nil` on a decoded object: true when the key is
absent or its value is JSON null (Go decodes JSON null as a nil
interface value). -/
def idIsNil (fields : List (String × Json)) : Bool :=
  match lookupKey fields "id" with
  | none => true
  | some Json.null => true
  | some _ => false

/-! ## Process lifecycle manager

From `Process`, `NewProcess`, `Start` and `Kill` in the lifecycle file
(`src/unnamed/part_005`). The OS-level effects of `Start` are captured
by two success parameters (`pipesOk` for the three pipe creations,
`startOk` for `cmd.Start()`); the child's reaction to the kill protocol
is captured by `ExitBehavior`. -/

/-- The `Process` struct: command line, whether `cmd.Start()` succeeded
(`cmd`/`cmd.Process` non-nil) and the `killed` flag. -/
structure Process where
  command : String
  started : Bool
  killed : Bool
deriving DecidableEq

/-- `NewProcess`: records the command; nothing is started yet. -/
def NewProcess (command : String) : Process :=
  { command := command, started := false, killed := false }

/-- `(*Process).Start`: `strings.Fields` the command; on an empty field
list it returns nil (no error) without starting anything; otherwise the
pipes are created and `cmd.Start()` is invoked, each failure being
returned as an error. -/
def Process.Start (p : Process) (pipesOk startOk : Bool) : Option String × Process :=
  match goFields p.command with
  | [] => (none, p)
  | _ :: _ =>
    if pipesOk = false then (some "pipe error", p)
    else if startOk = false then (some "start error", p)
    else (none, { p with started := true })

/-- How the child reacts to the kill protocol: exit within the 2s grace
window after stdin closes, exit within the 1s window after SIGTERM, or
ignore both and require SIGKILL. -/
inductive ExitBehavior where
  | exitsOnStdinClose
  | exitsOnSigterm
  | ignoresSignals
deriving DecidableEq

/-- A step of the graceful-then-forced kill protocol in `Kill`. -/
inductive KillAction where
  | closeStdin
  | waitGrace
  | signalTerm
  | waitSecondary
  | signalKill
deriving DecidableEq

/-- The actions `Kill` performs once past its guard, depending on when
the child exits: close stdin, wait up to 2s, SIGTERM, wait up to 1s,
SIGKILL. -/
def killSequence : ExitBehavior → List KillAction
  | ExitBehavior.exitsOnStdinClose => [KillAction.closeStdin, KillAction.waitGrace]
  | ExitBehavior.exitsOnSigterm =>
      [KillAction.closeStdin, KillAction.waitGrace, KillAction.signalTerm, KillAction.waitSecondary]
  | ExitBehavior.ignoresSignals =>
      [KillAction.closeStdin, KillAction.waitGrace, KillAction.signalTerm, KillAction.waitSecondary,
        KillAction.signalKill]

/-- `(*Process).Kill`: under the mutex, return immediately when already
killed or never started; otherwise set `killed` and run the
graceful-then-forced sequence. Returns the new state and the actions
performed. -/
def Process.Kill (p : Process) (b : ExitBehavior) : Process × List KillAction :=
  if p.killed || !p.started then (p, [])
  else ({ p with killed := true }, killSequence b)

/-! ## Process pool

From `src/pool.go`. The idle set is a buffered channel of capacity
`size`; channel sends/receives are atomic, so an arbitrary interleaving
of the maintenance loop's insertions with concurrent `Get` calls is a
sequence of atomic pool operations. Process identities are numbered by
`nextId` so that killed-and-dropped processes can be observed. -/

/-- Pool state: the idle channel contents (in FIFO order), a counter
producing fresh process identities, and the processes killed so far. -/
structure PoolState where
  idle : List Nat
  nextId : Nat
  killedList : List Nat
deriving DecidableEq

/-- An atomic pool operation: `spawnInsert` is the tail of
`(*ProcessPool).spawn` (the `select` that inserts the freshly spawned
process or kills it when the channel is full); `get` is
`(*ProcessPool).Get` (non-blocking receive). -/
inductive PoolOp where
  | spawnInsert
  | get
deriving DecidableEq

/-- The observable result of one pool operation. -/
inductive PoolEvent where
  | inserted (pid : Nat)
  | droppedKilled (pid : Nat)
  | got (pid : Nat)
  | gotNone
deriving DecidableEq

/-- One atomic pool operation against the buffered channel of capacity
`cap`: `spawnInsert` inserts when the channel has room and otherwise
kills and drops the process (`spawn`'s `select`/`default` branch);
`get` receives an idle process or returns none (`Get`'s
`select`/`default` branch). -/
def poolStep (cap : Nat) (st : PoolState) : PoolOp → PoolState × PoolEvent
  | PoolOp.spawnInsert =>
    let pid := st.nextId
    if st.idle.length < cap then
      ({ st with idle := st.idle ++ [pid], nextId := pid + 1 }, PoolEvent.inserted pid)
    else
      ({ st with nextId := pid + 1, killedList := pid :: st.killedList },
        PoolEvent.droppedKilled pid)
  | PoolOp.get =>
    match st.idle with
    | [] => (st, PoolEvent.gotNone)
    | p :: rest => ({ st with idle := rest }, PoolEvent.got p)

/-- Run a sequence of atomic pool operations from the freshly
constructed pool (`NewProcessPool` starts with an empty channel; its
pre-spawn loop and the `maintainPool` replenishment are sequences of
`spawnInsert` operations interleaved with `get`s). -/
def runPool (cap : Nat) (ops : List PoolOp) : PoolState :=
  ops.foldl (fun st op => (poolStep cap st op).1) { idle := [], nextId := 0, killedList := [] }

/-- The deficit computed by each `maintainPool` tick:
`needed = size - len(pool)`. -/
def maintainDeficit (cap : Nat) (st : PoolState) : Nat :=
  cap - st.idle.length

/-- One pool step never grows the idle count beyond the capacity. -/
theorem poolStep_preserves (cap : Nat) (st : PoolState) (op : PoolOp)
    (h : st.idle.length ≤ cap) : (poolStep cap st op).1.idle.length ≤ cap := by
  cases op with
  | spawnInsert =>
    by_cases hlt : st.idle.length < cap
    · simp [poolStep, hlt]
      omega
    · simp [poolStep, hlt]
      exact h
  | get =>
    cases hidle : st.idle with
    | nil => simp [poolStep, hidle]
    | cons p rest =>
      simp [poolStep, hidle]
      have := h
      rw [hidle] at this
      simp at this
      omega

/-- Auxiliary: the fold of pool steps preserves the capacity bound. -/
theorem runPool_foldl_bound (cap : Nat) (ops : List PoolOp) :
    ∀ st : PoolState, st.idle.length ≤ cap →
      (ops.foldl (fun st op => (poolStep cap st op).1) st).idle.length ≤ cap := by
  induction ops with
  | nil => intro st h; simpa using h
  | cons op rest ih =>
    intro st h
    simp only [List.foldl_cons]
    exact ih _ (poolStep_preserves cap st op h)

/-- Claim C4: for every effective capacity `cap` in `[0,10]`, along every
interleaving of maintenance insertions with concurrent `Get` calls the
idle count never exceeds `cap`; and a replenishment insertion that finds
the pool full kills and drops the spawned process, leaving the idle set
unchanged. -/
theorem pool_idle_never_exceeds_capacity (cap : Nat) (hcap : cap ≤ 10)
    (ops : List PoolOp) (st : PoolState) (hfull : st.idle.length = cap) :
    (runPool cap ops).idle.length ≤ cap ∧
    (poolStep cap st PoolOp.spawnInsert).1.idle = st.idle ∧
    (poolStep cap st PoolOp.spawnInsert).2 = PoolEvent.droppedKilled st.nextId := by
  refine ⟨?_, ?_, ?_⟩
  · exact runPool_foldl_bound cap ops _ (by simp)
  · simp [poolStep, hfull]
  · simp [poolStep, hfull]

/-- Witness for `pool_idle_never_exceeds_capacity` at capacity 2, a
concrete operation interleaving, and a concrete full pool state. -/
theorem pool_idle_never_exceeds_capacity_witness :
    (2 ≤ 10 ∧ (PoolState.mk [7, 8] 9 []).idle.length = 2) ∧
    ((runPool 2 [PoolOp.spawnInsert, PoolOp.spawnInsert, PoolOp.get, PoolOp.spawnInsert,
        PoolOp.spawnInsert]).idle.length ≤ 2 ∧
      (poolStep 2 (PoolState.mk [7, 8] 9 []) PoolOp.spawnInsert).1.idle = (PoolState.mk [7, 8] 9 []).idle ∧
      (poolStep 2 (PoolState.mk [7, 8] 9 []) PoolOp.spawnInsert).2 =
        PoolEvent.droppedKilled (PoolState.mk [7, 8] 9 []).nextId) :=
  ⟨⟨by decide, by decide⟩,
    pool_idle_never_exceeds_capacity 2 (by decide)
      [PoolOp.spawnInsert, PoolOp.spawnInsert, PoolOp.get, PoolOp.spawnInsert, PoolOp.spawnInsert]
      (PoolState.mk [7, 8] 9 []) (by decide)⟩

/-! ## Configured pool size

From `parseConfig` in the entry file (`src/unnamed/part_000`): after
reading flags and environment, only `if poolSize > 10 { poolSize = 10 }`
is applied; there is no lower clamp, and `NewProcessPool` uses the value
unchanged as the channel capacity. -/

/-- The pool-size adjustment `parseConfig` applies to the configured
value before `NewProcessPool` consumes it. -/
def parseConfigPoolSize (n : Int) : Int :=
  if n > 10 then 10 else n

/-- Modelled from the spec: the clamp to the range `[0,10]` that the
specification claims is applied to the configured pool size. -/
def specClampPoolSize (n : Int) : Int :=
  max 0 (min n 10)

/-- Claim C5 counterexample: at configured size `-1` the code keeps
`-1` while the claimed clamp to `[0,10]` would give `0`. -/
theorem pool_size_clamp_counterexample :
    parseConfigPoolSize (-1) = -1 ∧ specClampPoolSize (-1) = 0 ∧
    parseConfigPoolSize (-1) ≠ specClampPoolSize (-1) := by
  decide

/-- Claim C5 (amended): the capacity handed to the pool constructor is
the configured value capped above at 10; values not exceeding 10,
negative ones included, pass through unchanged. -/
theorem pool_size_cap_only_above (n : Int) :
    parseConfigPoolSize n = min n 10 ∧ (n ≤ 10 → parseConfigPoolSize n = n) := by
  constructor
  · simp only [parseConfigPoolSize, min_def]
    split <;> split <;> omega
  · intro h
    simp only [parseConfigPoolSize]
    split <;> omega

/-- Witness for `pool_size_cap_only_above` at the configured size 25. -/
theorem pool_size_cap_only_above_witness :
    parseConfigPoolSize 25 = min 25 10 ∧ ((25 : Int) ≤ 10 → parseConfigPoolSize 25 = 25) :=
  pool_size_cap_only_above 25

/-- Claim C8: terminating a process twice performs the kill sequence at
most once; the second invocation leaves the state unchanged, performs no
action of the sequence, and returns without error (`Kill` has no error
result to return). -/
theorem kill_second_call_noop (p : Process) (b1 b2 : ExitBehavior) :
    Process.Kill (Process.Kill p b1).1 b2 = ((Process.Kill p b1).1, []) := by
  by_cases hg : p.killed || !p.started
  · simp [Process.Kill, hg]
  · simp [Process.Kill, hg]

/-- Claim C9 counterexample: starting a process whose command line is
whitespace-only reports success (no error) while starting no child
process at all. -/
theorem start_empty_command_counterexample :
    (Process.Start (NewProcess " ") true true).1 = none ∧
    (Process.Start (NewProcess " ") true true).2.started = false := by
  decide

/-- Claim C9 (amended): for a command line with at least one field,
`Start` returns an error exactly when pipe creation or `cmd.Start()`
fails, and a nil error implies a running child; for an empty or
whitespace-only command line it returns nil without starting anything. -/
theorem start_error_iff_cannot_start (cmd : String) (pipesOk startOk : Bool)
    (h : goFields cmd ≠ []) :
    ((Process.Start (NewProcess cmd) pipesOk startOk).1 = none ↔
      (pipesOk = true ∧ startOk = true)) ∧
    ((Process.Start (NewProcess cmd) pipesOk startOk).1 = none →
      (Process.Start (NewProcess cmd) pipesOk startOk).2.started = true) := by
  match hf : goFields cmd with
  | [] => exact absurd hf h
  | f :: fs =>
    cases pipesOk <;> cases startOk <;>
      simp [Process.Start, NewProcess, hf]

/-- Witness for `start_error_iff_cannot_start` on the command
`"sleep 1"` with a failing `cmd.Start()`. -/
theorem start_error_iff_cannot_start_witness :
    goFields "sleep 1" ≠ [] ∧
    (((Process.Start (NewProcess "sleep 1") true false).1 = none ↔
        (true = true ∧ false = true)) ∧
      ((Process.Start (NewProcess "sleep 1") true false).1 = none →
        (Process.Start (NewProcess "sleep 1") true false).2.started = true)) :=
  ⟨by decide, start_error_iff_cannot_start "sleep 1" true false (by decide)⟩

/-! ## Session manager (durable mode)

From `src/main.go`: `Session`, `createSessionForClient`,
`cleanupSession`, `restartSession`, `getSessionFromContext`,
`isRetriableError` and `handleWithRetry`. One logical client session is
modelled; the stdio client bound to it is identified by a process
number drawn from `nextProc`, and `killedProcs` records the bound
processes closed so far. Spawn and initialize success of
`NewStdioMCPClient`/`Initialize` are the `clientOk`/`initOk`
parameters; times are natural-number seconds. -/

/-- The `Session` struct fields the retry policy reads and writes:
`restartCount`, `lastError`, and the identity of the bound stdio-client
process. -/
structure Sess where
  restartCount : Nat
  lastError : Nat
  procId : Nat
deriving DecidableEq

/-- The bridge-server state visible to the session layer: the (single)
session slot in the session map, the fresh-process counter, and the
processes closed so far. -/
structure BridgeState where
  sess : Option Sess
  nextProc : Nat
  killedProcs : List Nat
deriving DecidableEq

/-- `createSessionForClient`: parse the command (empty field list: log
and return), create the stdio client (spawning a fresh child), then
initialize it (on failure the client is closed and no session stored);
on success store a session with zero restart count. -/
def createSessionForClient (st : BridgeState) (cmdFields : List (List Char))
    (clientOk initOk : Bool) : BridgeState :=
  match cmdFields with
  | [] => st
  | _ :: _ =>
    if clientOk = false then st
    else if initOk = false then
      { st with nextProc := st.nextProc + 1, killedProcs := st.nextProc :: st.killedProcs }
    else
      { st with sess := some { restartCount := 0, lastError := 0, procId := st.nextProc },
                nextProc := st.nextProc + 1 }

/-- `cleanupSession`: close the bound stdio client and delete the
session from the map, when present. -/
def cleanupSession (st : BridgeState) : BridgeState :=
  match st.sess with
  | none => st
  | some s => { st with sess := none, killedProcs := s.procId :: st.killedProcs }

/-- `restartSession`: clean up the existing session, create a fresh one,
fail if none was stored, and otherwise bump the new session's restart
counter and failure timestamp. Returns the new state and whether the
restart succeeded. -/
def restartSession (st : BridgeState) (now : Nat) (cmdFields : List (List Char))
    (clientOk initOk : Bool) : BridgeState × Bool :=
  let st1 := cleanupSession st
  let st2 := createSessionForClient st1 cmdFields clientOk initOk
  match st2.sess with
  | none => (st2, false)
  | some s =>
    ({ st2 with sess := some { s with restartCount := s.restartCount + 1, lastError := now } },
      true)

/-- The result of resolving the calling session. -/
inductive SessResolve where
  | found (s : Sess)
  | tempFailure
  | sessionMissing
deriving DecidableEq

/-- `getSessionFromContext`: return the stored session; when unbound and
durable mode is on, lazily create it, returning `ErrTemporaryFailure`
when creation still leaves it unbound; outside durable mode return the
session-not-found error. -/
def getSessionFromContext (st : BridgeState) (durable : Bool) (cmdFields : List (List Char))
    (clientOk initOk : Bool) : BridgeState × SessResolve :=
  match st.sess with
  | some s => (st, SessResolve.found s)
  | none =>
    if durable then
      let st1 := createSessionForClient st cmdFields clientOk initOk
      match st1.sess with
      | some s => (st1, SessResolve.found s)
      | none => (st1, SessResolve.tempFailure)
    else (st, SessResolve.sessionMissing)

/-- `isRetriableError`: message-content match for dead-process
signatures. -/
def isRetriableError (errStr : String) : Bool :=
  goContains errStr "broken pipe" ||
  goContains errStr "EOF" ||
  goContains errStr "process exited" ||
  goContains errStr "connection reset" ||
  goContains errStr "i/o timeout"

/-- The outcome `handleWithRetry` hands back to the caller of a
tool-call/resource-read/prompt-get operation. -/
inductive CallOutcome where
  | success
  | rawError (msg : String)
  | sessionRestarted
  | temporaryFailure
  | sessionNotFound
deriving DecidableEq

/-- `handleWithRetry`: resolve the session, run the operation once
(`opResult` is its error, `none` on success), pass through successes,
non-durable-mode errors and non-retriable errors; when the limit check
`restartCount >= 3 && time.Since(lastError) < 5min` fires, return the
original error; otherwise restart the session, returning
`ErrSessionRestarted` on success and `ErrTemporaryFailure` when the
restart itself fails. -/
def handleWithRetry (st : BridgeState) (durable : Bool) (now : Nat)
    (cmdFields : List (List Char)) (clientOk initOk : Bool)
    (opResult : Option String) : BridgeState × CallOutcome :=
  match getSessionFromContext st durable cmdFields clientOk initOk with
  | (st1, SessResolve.tempFailure) => (st1, CallOutcome.temporaryFailure)
  | (st1, SessResolve.sessionMissing) => (st1, CallOutcome.sessionNotFound)
  | (st1, SessResolve.found s) =>
    match opResult with
    | none => (st1, CallOutcome.success)
    | some msg =>
      if durable = false then (st1, CallOutcome.rawError msg)
      else if isRetriableError msg = false then (st1, CallOutcome.rawError msg)
      else if s.restartCount ≥ 3 && now - s.lastError < 300 then
        (st1, CallOutcome.rawError msg)
      else
        match restartSession st1 now cmdFields clientOk initOk with
        | (st2, false) => (st2, CallOutcome.temporaryFailure)
        | (st2, true) => (st2, CallOutcome.sessionRestarted)

/-- A sequence of operations that all fail with the same error, run in
durable mode at the given times, with session spawn and initialize
succeeding. -/
def runFailures (st : BridgeState) (cmdFields : List (List Char)) (times : List Nat)
    (errMsg : String) : BridgeState × List CallOutcome :=
  match times with
  | [] => (st, [])
  | t :: rest =>
    let r1 := handleWithRetry st true t cmdFields true true (some errMsg)
    let r2 := runFailures r1.1 cmdFields rest errMsg
    (r2.1, r1.2 :: r2.2)

/-- The field list of a representative child command. -/
def mcpCmdFields : List (List Char) := goFields "mcp-server"

/-- Claim C1, evaluated on the code: a durable session hit by four
"broken pipe" failures within five minutes gets a restarted-session
outcome with a fresh bound process on every one of the four failures,
the fourth included — because `restartSession` replaces the `Session`
object, the restart counter is 1 after every successful restart and the
budget check never fires; moreover, even in a state where the check
does fire (counter already at 3), the code returns the raw error rather
than the distinguished temporary-failure outcome. -/
theorem restart_budget_counter_reset_eval :
    (runFailures (BridgeState.mk none 1 []) mcpCmdFields [0, 60, 120, 180]
        "write |1: broken pipe").2 =
      [CallOutcome.sessionRestarted, CallOutcome.sessionRestarted,
        CallOutcome.sessionRestarted, CallOutcome.sessionRestarted] ∧
    ((runFailures (BridgeState.mk none 1 []) mcpCmdFields [0, 60, 120, 180]
        "write |1: broken pipe").1.sess.map Sess.procId) = some 5 ∧
    (runFailures (BridgeState.mk none 1 []) mcpCmdFields [0, 60, 120, 180]
        "write |1: broken pipe").1.killedProcs = [4, 3, 2, 1] ∧
    (handleWithRetry (BridgeState.mk (some (Sess.mk 3 0 9)) 10 []) true 100 mcpCmdFields
        true true (some "write |1: broken pipe")).2 =
      CallOutcome.rawError "write |1: broken pipe" := by
  decide

/-! ## HTTP gateway

From `handleHTTP` and `handleSSEStream` in the HTTP file
(`src/unnamed/part_004`). A request carries the fields the handler
reads; the child's behaviour (pool hit, spawn success, stdin health,
and the timed stdout lines) is a parameter. An output line pairs the
raw text with its parse result: `parsed = none` when `json.Unmarshal`
fails on it, and parsing it a second time into `map[string]interface{}`
succeeds exactly when the value is an object. -/

/-- The HTTP method of a request. -/
inductive Method where
  | get
  | post
  | other
deriving DecidableEq

/-- The parts of an incoming HTTP request that `handleHTTP` reads.
`protocolVersion` and `accept` are `Header.Get` results (empty string
when the header is absent); `bodyObj` is the decode of `bodyRaw` into
`map[string]interface{}` (`none` when the body is not a JSON object). -/
structure Request where
  method : Method
  protocolVersion : String
  accept : String
  bodyReadOk : Bool
  bodyRaw : String
  bodyObj : Option (List (String × Json))

/-- One line of child stdout: the raw text and its JSON parse
(`none` when `json.Unmarshal` into `json.RawMessage` fails). -/
structure OutLine where
  raw : String
  parsed : Option Json

/-- The child-side behaviour a request execution observes: the pool's
`Get` result, success of a cold-start spawn, the identity such a fresh
process would get, stdin write health, the child's timed stdout lines
(arrival second, line), and whether stdout reaches end-of-stream after
them (`false`: the child stays silent without closing the pipe). -/
structure ChildBehavior where
  poolHit : Option Nat
  freshPid : Nat
  spawnOk : Bool
  stdinOk : Bool
  outLines : List (Nat × OutLine)
  eofAfter : Bool

/-- A Server-Sent-Events frame written by the gateway. -/
inductive HSseEvent where
  | data (raw : String)
  | done
deriving DecidableEq

/-- A process-interaction side effect of handling a request. -/
inductive Effect where
  | poolGet (pid : Nat)
  | spawned (pid : Nat)
  | wroteStdin (bytes : String)
  | wroteStdinNewline
  | killedProc (pid : Nat)
deriving DecidableEq

/-- The overall outcome of a request: a status-bearing response, a
stream, or the handler never returning (`hangs`). -/
inductive HttpOutcome where
  | badRequest (msg : String)
  | methodNotAllowed
  | accepted202
  | internalError (msg : String)
  | gatewayTimeout504
  | okJson (body : String)
  | sse (events : List HSseEvent)
  | getStream (events : List HSseEvent)
  | hangs
deriving DecidableEq

/-- The streaming branch's stop test on a relayed line: the second
`json.Unmarshal` into a map succeeds (the value is an object) and the
`id` key is absent. -/
def sseBreakAfter (j : Json) : Bool :=
  match j with
  | Json.obj fs => !hasKey fs "id"
  | _ => false

/-- The SSE events the POST streaming branch writes: every line that
parses as JSON becomes one `data:` event; after relaying an object
without an `id` key the loop breaks; in all cases the synthetic
`event: done` marker closes the stream. -/
def ssePostEvents : List OutLine → List HSseEvent
  | [] => [HSseEvent.done]
  | l :: rest =>
    match l.parsed with
    | none => ssePostEvents rest
    | some j =>
      HSseEvent.data l.raw ::
        (if sseBreakAfter j then [HSseEvent.done] else ssePostEvents rest)

/-- The events `handleSSEStream` (the GET path) writes: every valid
JSON line as a `data:` event until the stream ends; no done marker. -/
def sseGetEvents : List OutLine → List HSseEvent
  | [] => []
  | l :: rest =>
    match l.parsed with
    | none => sseGetEvents rest
    | some _ => HSseEvent.data l.raw :: sseGetEvents rest

/-- Classification of one stdout line inside the non-streaming wait
loop. -/
inductive SingleClass where
  | keepReading
  | finalResponse
  | notifResponse
deriving DecidableEq

/-- The non-streaming branch's per-line classification: lines that are
not JSON objects fall through every branch and are skipped; an object
with `method` keeps reading (server request or notification); a
`result`/`error` object with an `id` key is the final response; a
`result`/`error` object whose `id` is nil is a response to a
notification. -/
def classifyOut (l : OutLine) : SingleClass :=
  match l.parsed with
  | some (Json.obj fs) =>
    if hasKey fs "method" && hasKey fs "id" then SingleClass.keepReading
    else if hasKey fs "method" && !hasKey fs "id" then SingleClass.keepReading
    else if (hasKey fs "result" || hasKey fs "error") && hasKey fs "id" then
      SingleClass.finalResponse
    else if (hasKey fs "result" || hasKey fs "error") && idIsNil fs then
      SingleClass.notifResponse
    else SingleClass.keepReading
  | _ => SingleClass.keepReading

/-- The non-streaming wait loop: at each iteration the `select` takes
the 30-second timer branch when it has already fired, and otherwise
enters the `default` branch, where `scanner.Scan()` blocks until the
child produces the next line (or end-of-stream). The clock `t` is the
time the iteration starts; scanning a line that arrives at time `a`
resumes the loop at `max t a`. With no further lines and no
end-of-stream the loop is stuck inside `Scan` forever. -/
def singleJsonWait : Nat → List (Nat × OutLine) → Bool → HttpOutcome
  | t, outs, eofAfter =>
    if t ≥ 30 then HttpOutcome.gatewayTimeout504
    else
      match outs with
      | [] =>
        if eofAfter then HttpOutcome.internalError "Failed to read response"
        else HttpOutcome.hangs
      | (a, l) :: rest =>
        match classifyOut l with
        | SingleClass.keepReading => singleJsonWait (max t a) rest eofAfter
        | SingleClass.finalResponse => HttpOutcome.okJson l.raw
        | SingleClass.notifResponse => HttpOutcome.accepted202

/-- The tail of the POST path after a process has been acquired
(`effs` already records how): write body and newline to stdin (failure:
500, deferred kill still runs), then branch on whether `Accept`
contains `text/event-stream`; the deferred `process.Kill()` runs
whenever the handler returns, and therefore not when the non-streaming
wait hangs. -/
def afterAcquire (r : Request) (c : ChildBehavior) (pid : Nat) (effs : List Effect) :
    HttpOutcome × List Effect :=
  if c.stdinOk = false then
    (HttpOutcome.internalError "Failed to write to process", effs ++ [Effect.killedProc pid])
  else
    let effs1 := effs ++ [Effect.wroteStdin r.bodyRaw, Effect.wroteStdinNewline]
    if goContains r.accept "text/event-stream" then
      (HttpOutcome.sse (ssePostEvents (c.outLines.map Prod.snd)),
        effs1 ++ [Effect.killedProc pid])
    else
      let out := singleJsonWait 0 c.outLines c.eofAfter
      (out, effs1 ++ (if out = HttpOutcome.hangs then [] else [Effect.killedProc pid]))

/-- `handleSSEStream`: spawn a dedicated process (500 on failure) and
stream every valid JSON stdout line until the stream ends; the deferred
kill releases the process. -/
def handleSSEStream (c : ChildBehavior) : HttpOutcome × List Effect :=
  if c.spawnOk = false then
    (HttpOutcome.internalError "Failed to create or start process", [])
  else
    (HttpOutcome.getStream (sseGetEvents (c.outLines.map Prod.snd)),
      [Effect.spawned c.freshPid, Effect.killedProc c.freshPid])

/-- `handleHTTP`: the per-request state machine — protocol-version
check, GET accept check and SSE stream, 405 on other methods, POST
accept check (both media types required), body read and parse, 202 for
client responses/acknowledgements, process acquisition (pool, then
cold-start spawn), and the two delivery branches. -/
def handleHTTP (r : Request) (c : ChildBehavior) : HttpOutcome × List Effect :=
  if r.protocolVersion = "" then
    (HttpOutcome.badRequest "Missing MCP-Protocol-Version header", [])
  else if r.method = Method.get then
    if goContains r.accept "text/event-stream" = false then
      (HttpOutcome.badRequest "Accept header must include text/event-stream for GET requests", [])
    else handleSSEStream c
  else if r.method ≠ Method.post then
    (HttpOutcome.methodNotAllowed, [])
  else if (goContains r.accept "application/json" && goContains r.accept "text/event-stream")
      = false then
    (HttpOutcome.badRequest "Accept header must include both application/json and text/event-stream",
      [])
  else if r.bodyReadOk = false then
    (HttpOutcome.badRequest "Failed to read request body", [])
  else
    match r.bodyObj with
    | none => (HttpOutcome.badRequest "Invalid JSON", [])
    | some fs =>
      if !hasKey fs "method" && (hasKey fs "result" || hasKey fs "error") then
        (HttpOutcome.accepted202, [])
      else
        match c.poolHit with
        | some pid => afterAcquire r c pid [Effect.poolGet pid]
        | none =>
          if c.spawnOk = false then
            (HttpOutcome.internalError "Failed to create or start process", [])
          else afterAcquire r c c.freshPid [Effect.spawned c.freshPid]

/-- A syntactically valid notification line from the child. -/
def notifLine : OutLine :=
  { raw := "\x7b\"jsonrpc\":\"2.0\",\"method\":\"notify\"\x7d",
    parsed := some (Json.obj [("jsonrpc", Json.str "2.0"), ("method", Json.str "notify")]) }

/-- A POST request whose `Accept` carries only `application/json`. -/
def postJsonOnlyReq : Request :=
  { method := Method.post
    protocolVersion := "2025-03-26"
    accept := "application/json"
    bodyReadOk := true
    bodyRaw := "\x7b\"jsonrpc\":\"2.0\",\"id\":1,\"method\":\"ping\"\x7d"
    bodyObj := some [("jsonrpc", Json.str "2.0"), ("id", Json.num 1),
      ("method", Json.str "ping")] }

/-- A child that produces no output at all and never closes stdout. -/
def silentChild : ChildBehavior :=
  { poolHit := none, freshPid := 1, spawnOk := true, stdinOk := true,
    outLines := [], eofAfter := false }

/-- Claim C2, evaluated on the code: (1) a request with `Accept:
application/json` alone is rejected 400 with no process effects, so no
POST is ever served in single-JSON mode (the POST accept check demands
`text/event-stream` too, making `acceptSSE` true on every surviving
request); (2) inside the single-JSON wait loop itself a child that
emits no further output lines makes the handler block forever in
`scanner.Scan()` instead of answering 504, because the `select`
consults the 30-second timer only between lines; (3) the timer branch
is taken only once another line arrives after the deadline. -/
theorem single_json_timeout_unreachable_and_hangs :
    (handleHTTP postJsonOnlyReq silentChild).1 =
      HttpOutcome.badRequest
        "Accept header must include both application/json and text/event-stream" ∧
    (handleHTTP postJsonOnlyReq silentChild).2 = [] ∧
    singleJsonWait 0 [] false = HttpOutcome.hangs ∧
    singleJsonWait 0 [(31, notifLine)] false = HttpOutcome.gatewayTimeout504 := by
  decide

/-- Claim C6: every request failing header validation — a GET whose
`Accept` lacks `text/event-stream`, or any request missing the
protocol-version header — is answered 400 with no process interaction
of any kind. -/
theorem validation_400_no_process_effects (r : Request) (c : ChildBehavior)
    (h : r.protocolVersion = "" ∨
      (r.method = Method.get ∧ goContains r.accept "text/event-stream" = false)) :
    (∃ msg, (handleHTTP r c).1 = HttpOutcome.badRequest msg) ∧
    (handleHTTP r c).2 = [] := by
  rcases h with hpv | ⟨hm, ha⟩
  · constructor
    · exact ⟨"Missing MCP-Protocol-Version header", by simp [handleHTTP, hpv]⟩
    · simp [handleHTTP, hpv]
  · by_cases hpv : r.protocolVersion = ""
    · constructor
      · exact ⟨"Missing MCP-Protocol-Version header", by simp [handleHTTP, hpv]⟩
      · simp [handleHTTP, hpv]
    · constructor
      · exact ⟨"Accept header must include text/event-stream for GET requests",
          by simp [handleHTTP, hpv, hm, ha]⟩
      · simp [handleHTTP, hpv, hm, ha]

/-- Witness for `validation_400_no_process_effects`: a GET carrying the
protocol-version header whose `Accept` is only `application/json`. -/
theorem validation_400_no_process_effects_witness :
    (("" : String) = "" ∨
      ((Request.mk Method.get "2025-03-26" "application/json" true "" none).method = Method.get ∧
        goContains (Request.mk Method.get "2025-03-26" "application/json" true "" none).accept
          "text/event-stream" = false)) ∧
    ((∃ msg,
        (handleHTTP (Request.mk Method.get "2025-03-26" "application/json" true "" none)
            silentChild).1 = HttpOutcome.badRequest msg) ∧
      (handleHTTP (Request.mk Method.get "2025-03-26" "application/json" true "" none)
          silentChild).2 = []) :=
  ⟨Or.inr ⟨rfl, by decide⟩,
    validation_400_no_process_effects
      (Request.mk Method.get "2025-03-26" "application/json" true "" none) silentChild
      (Or.inr ⟨rfl, by decide⟩)⟩

/-- Modelled from the claim's words: relay every valid JSON line and
stop after the first relayed line that lacks an `id` field — where a
non-object JSON value has no fields, hence no `id` field. -/
def sseSpecClaim : List OutLine → List HSseEvent
  | [] => [HSseEvent.done]
  | l :: rest =>
    match l.parsed with
    | none => sseSpecClaim rest
    | some (Json.obj fs) =>
      HSseEvent.data l.raw ::
        (if hasKey fs "id" then sseSpecClaim rest else [HSseEvent.done])
    | some _ => HSseEvent.data l.raw :: [HSseEvent.done]

/-- A valid JSON line that is not an object: the bare number 5. -/
def numberLine : OutLine := { raw := "5", parsed := some (Json.num 5) }

/-- A final-response line carrying an `id`. -/
def respLine : OutLine :=
  { raw := "\x7b\"jsonrpc\":\"2.0\",\"id\":1,\"result\":\x7b\x7d\x7d",
    parsed := some (Json.obj [("jsonrpc", Json.str "2.0"), ("id", Json.num 1),
      ("result", Json.obj [])]) }

/-- Claim C7 counterexample: on the output `5` followed by a response
with an `id`, the code relays both lines before the done marker, while
stopping after the first relayed line lacking an `id` field (the bare
`5`) would have relayed only one. -/
theorem sse_stop_condition_counterexample :
    ssePostEvents [numberLine, respLine] =
      [HSseEvent.data numberLine.raw, HSseEvent.data respLine.raw, HSseEvent.done] ∧
    ssePostEvents [numberLine, respLine] ≠ sseSpecClaim [numberLine, respLine] := by
  constructor
  · rfl
  · intro h
    simp [ssePostEvents, sseSpecClaim, numberLine, respLine, sseBreakAfter, hasKey] at h

/-- Modelled from the amended claim's words: relay every valid JSON
line and stop after the first relayed line that parses as a JSON object
lacking an `id` field; valid non-object lines are relayed without
stopping; always close with the done marker. -/
def sseSpecAmended : List OutLine → List HSseEvent
  | [] => [HSseEvent.done]
  | l :: rest =>
    match l.parsed with
    | none => sseSpecAmended rest
    | some (Json.obj fs) =>
      HSseEvent.data l.raw ::
        (if hasKey fs "id" then sseSpecAmended rest else [HSseEvent.done])
    | some _ => HSseEvent.data l.raw :: sseSpecAmended rest

/-- The streaming relay always closes with the done marker. -/
theorem ssePostEvents_ends_done (ls : List OutLine) :
    ∃ pre, ssePostEvents ls = pre ++ [HSseEvent.done] := by
  induction ls with
  | nil => exact ⟨[], rfl⟩
  | cons l rest ih =>
    match hp : l.parsed with
    | none => simpa [ssePostEvents, hp] using ih
    | some j =>
      by_cases hb : sseBreakAfter j
      · exact ⟨[HSseEvent.data l.raw], by simp [ssePostEvents, hp, hb]⟩
      · obtain ⟨pre, hpre⟩ := ih
        exact ⟨HSseEvent.data l.raw :: pre, by simp [ssePostEvents, hp, hb, hpre]⟩

/-- Claim C7 (amended): the POST streaming branch relays each valid
JSON line as one `data:` event, stops after the first relayed line that
parses as a JSON object lacking an `id` field or when the stream ends,
relays valid non-object lines without stopping, and in every case
closes with the synthetic done marker. -/
theorem sse_relay_stops_on_object_without_id (ls : List OutLine) :
    ssePostEvents ls = sseSpecAmended ls ∧
    ∃ pre, ssePostEvents ls = pre ++ [HSseEvent.done] := by
  refine ⟨?_, ssePostEvents_ends_done ls⟩
  induction ls with
  | nil => rfl
  | cons l rest ih =>
    match hp : l.parsed with
    | none => simpa [ssePostEvents, sseSpecAmended, hp] using ih
    | some (Json.obj fs) =>
      simp only [ssePostEvents, sseSpecAmended, hp, sseBreakAfter]
      rcases Bool.eq_false_or_eq_true (hasKey fs "id") with hk | hk <;> simp [hk, ih]
    | some Json.null => simp [ssePostEvents, sseSpecAmended, hp, sseBreakAfter, ih]
    | some (Json.num n) => simp [ssePostEvents, sseSpecAmended, hp, sseBreakAfter, ih]
    | some (Json.str s) => simp [ssePostEvents, sseSpecAmended, hp, sseBreakAfter, ih]

/-! ## WebSocket transport bridge

From `Bridge`, `pipeWebSocketToStdin`, `pipeStdoutToWebSocket` and
`cleanup` in the bridge file (second half of `src/unnamed/part_002`).
Each pump is a loop over the events its blocking read yields; a pump
whose event list is exhausted without a read error or end-of-stream is
still blocked inside that read and has not exited. Only the inbound
pump carries `defer b.cleanup()`; the outbound pump's only deferred
call is `wg.Done()`. The connection itself is closed by
`handleWebSocket`'s `defer conn.Close()`, which runs after
`bridge.Wait()`, i.e. after both pumps have exited. -/

/-- One result of `conn.ReadMessage()` on the bridged connection: a
text frame, a non-text (binary) frame, or a read error (including the
peer closing). -/
inductive WsFrame where
  | text (msg : String)
  | binaryData (msg : String)
  | readErr
deriving DecidableEq

/-- Why a pump loop returned. -/
inductive PumpExit where
  | readError
  | writeError
deriving DecidableEq

/-- `pipeWebSocketToStdin`'s loop body: read one frame at a time; on a
read error return; on a text frame write its bytes plus a newline to
the child's stdin (a write failure, e.g. against a dead process,
returns); any other frame type is not written and the loop continues.
Returns the chunks written to stdin and how the loop exited (`none`:
still blocked in `ReadMessage` awaiting the next frame). -/
def pipeWebSocketToStdin (stdinOk : Bool) : List WsFrame → List String × Option PumpExit
  | [] => ([], none)
  | WsFrame.readErr :: _ => ([], some PumpExit.readError)
  | WsFrame.binaryData _ :: rest => pipeWebSocketToStdin stdinOk rest
  | WsFrame.text m :: rest =>
    if stdinOk then
      let r := pipeWebSocketToStdin stdinOk rest
      (m :: "\n" :: r.1, r.2)
    else ([], some PumpExit.writeError)

/-- A cleanup step a pump could run on exit. -/
inductive CleanupAction where
  | closeDoneChannel
  | killProcess
  | closeConnection
deriving DecidableEq

/-- `(*Bridge).cleanup`: close the `done` channel and kill the bound
process. It does not close the connection. -/
def bridgeCleanup : List CleanupAction :=
  [CleanupAction.closeDoneChannel, CleanupAction.killProcess]

/-- The cleanup the inbound pump runs: its `defer b.cleanup()` fires
exactly when the loop exits. -/
def inboundExitCleanup (stdinOk : Bool) (frames : List WsFrame) : List CleanupAction :=
  match (pipeWebSocketToStdin stdinOk frames).2 with
  | some _ => bridgeCleanup
  | none => []

/-- One result of reading the child's stdout: a chunk of bytes,
end-of-stream (`io.EOF`, e.g. after the process dies), or a read
error. -/
inductive OutChunk where
  | chunk (bytes : String)
  | readEOF
  | readErrOut
deriving DecidableEq

/-- `pipeStdoutToWebSocket`'s loop body: read chunks from stdout;
end-of-stream or a read error returns; a non-empty chunk is forwarded
as one text frame (a connection write failure returns). Returns the
frames sent and whether the loop exited (`false`: still blocked in
`Read`). -/
def pipeStdoutToWebSocket (connOk : Bool) : List OutChunk → List String × Bool
  | [] => ([], false)
  | OutChunk.readEOF :: _ => ([], true)
  | OutChunk.readErrOut :: _ => ([], true)
  | OutChunk.chunk b :: rest =>
    if b.length > 0 then
      if connOk then
        let r := pipeStdoutToWebSocket connOk rest
        (b :: r.1, r.2)
      else ([], true)
    else pipeStdoutToWebSocket connOk rest

/-- The cleanup the outbound pump runs on exit: none — its only
deferred call is `wg.Done()`; there is no `defer b.cleanup()` in
`pipeStdoutToWebSocket`. -/
def outboundExitCleanup (_connOk : Bool) (_chunks : List OutChunk) : List CleanupAction :=
  []

/-- Claim C3, evaluated on the code: when the bound process dies while
the connection is open and the client sends nothing, the outbound pump
exits on stdout end-of-stream but runs no cleanup (the process is not
terminated through the lifecycle manager and the connection is not
closed by it), the inbound pump has not ended (it stays blocked in
`ReadMessage` on the still-open connection), and even the bridge's
cleanup routine itself never closes the connection. -/
theorem outbound_pump_exit_runs_no_cleanup :
    (pipeStdoutToWebSocket true [OutChunk.readEOF]).2 = true ∧
    outboundExitCleanup true [OutChunk.readEOF] = [] ∧
    (pipeWebSocketToStdin true []).2 = none ∧
    inboundExitCleanup true [] = [] ∧
    CleanupAction.closeConnection ∉ bridgeCleanup := by
  decide

/-- Claim C10: a non-text frame anywhere in the inbound traffic is
silently discarded — the pump writes nothing to the child's stdin for
it, does not error, does not end, and the rest of the traffic is
processed exactly as if the frame had not arrived. -/
theorem binary_frame_silently_discarded (stdinOk : Bool) (pre post : List WsFrame)
    (m : String) :
    pipeWebSocketToStdin stdinOk (pre ++ WsFrame.binaryData m :: post) =
      pipeWebSocketToStdin stdinOk (pre ++ post) := by
  induction pre with
  | nil => simp [pipeWebSocketToStdin]
  | cons f rest ih =>
    cases f with
    | text s =>
      by_cases hs : stdinOk = true
      · subst hs
        simp [pipeWebSocketToStdin, ih]
      · simp [pipeWebSocketToStdin, hs]
    | binaryData s => simpa [pipeWebSocketToStdin] using ih
    | readErr => simp [pipeWebSocketToStdin]

end TeleMcp
